import Mathlib

/-!
Shallow embedding of the gated WSL command-execution engine
(`src/command-executor.ts`, `src/index.ts`, `src/constants.ts`,
`src/errors.ts`, `src/types.ts`) and proofs about the spec's claims.

Strings are modelled by Lean `String`/`List Char`; JavaScript numbers by
an inductive `JSNum` capturing NaN, the two infinities and finite values
(finite values carry an `Int`: only order comparisons with zero and with
process durations matter to the code, so integral milliseconds lose no
behaviour relevant to any claim).  Case mapping uses ASCII `Char.toLower`,
matching the ASCII-only token list of `constants.ts`.
-/

/-- JavaScript number values as far as the executor observes them:
`NaN`, `+Infinity`, `-Infinity`, or a finite (integral) value. -/
inductive JSNum where
  | nan
  | inf
  | ninf
  | num (v : Int)
deriving DecidableEq, Repr

/-- JavaScript truthiness of a number: `NaN` and `0` are falsy. -/
def JSNum.truthy : JSNum → Bool
  | .nan => false
  | .num v => v != 0
  | _ => true

/-- `isNaN(x)` for our number model. -/
def JSNum.is_nan : JSNum → Bool
  | .nan => true
  | _ => false

/-- `x < 0` in JavaScript (false for NaN). -/
def JSNum.lt_zero : JSNum → Bool
  | .ninf => true
  | .num v => v < 0
  | _ => false

/-- `t < d` for a duration `d` in milliseconds: "the process would run
longer than the timeout `t`" (false for NaN, as every JS comparison). -/
def JSNum.lt_nat (t : JSNum) (d : Nat) : Bool :=
  match t with
  | .nan => false
  | .inf => false
  | .ninf => true
  | .num v => v < (d : Int)

/-- The error taxonomy of `src/errors.ts` (carried data only; the
message strings are kept where a claim mentions them). -/
inductive WslError where
  | validation (message : String)
  | timeout (timeout : JSNum)
  | invalidConfirmation (confirmation_id : String)
  | processError (message : String)
deriving DecidableEq, Repr

instance {ε α : Type} [DecidableEq ε] [DecidableEq α] : DecidableEq (Except ε α) := fun a b =>
  match a, b with
  | .ok x, .ok y =>
    if h : x = y then .isTrue (by rw [h]) else .isFalse (fun hc => h (Except.ok.inj hc))
  | .error x, .error y =>
    if h : x = y then .isTrue (by rw [h]) else .isFalse (fun hc => h (Except.error.inj hc))
  | .ok _, .error _ => .isFalse (fun hc => Except.noConfusion hc)
  | .error _, .ok _ => .isFalse (fun hc => Except.noConfusion hc)

/-- The characters removed by `replace(/[;&|`$]/g, '')`. -/
def is_meta_char (c : Char) : Bool :=
  c = ';' || c = '&' || c = '|' || c = '`' || c = '$'

/-- `command.replace(/[;&|`$]/g, '')`. -/
def remove_meta (l : List Char) : List Char :=
  l.filter (fun c => !is_meta_char c)

/-- `command.replace(/\\/g, '/')`. -/
def normalize_slash (l : List Char) : List Char :=
  l.map (fun c => if c = '\\' then '/' else c)

/-- `command.replace(/\.\./g, '')`: one left-to-right pass removing
non-overlapping occurrences of `..`, exactly as a JS global regex
replace scans the string. -/
def remove_dotdot : List Char → List Char
  | [] => []
  | [c] => [c]
  | a :: b :: rest =>
    if a = '.' ∧ b = '.' then remove_dotdot rest
    else a :: remove_dotdot (b :: rest)

/-- `command.replace(/~/g, '')`. -/
def remove_tilde (l : List Char) : List Char :=
  l.filter (fun c => c != '~')

/-- JavaScript `String.prototype.trim` whitespace (the ASCII part plus
NBSP and BOM; the source never produces the remaining Unicode spaces). -/
def is_js_ws (c : Char) : Bool :=
  c = ' ' || c = '\t' || c = '\n' || c = '\r' ||
  c = '\x0b' || c = '\x0c' || c = ' ' || c = '﻿'

/-- Drop trailing characters satisfying `p`. -/
def drop_trailing (p : Char → Bool) (l : List Char) : List Char :=
  (l.reverse.dropWhile p).reverse

/-- `s.trim()`. -/
def trim_list (l : List Char) : List Char :=
  drop_trailing is_js_ws (l.dropWhile is_js_ws)

/-- The pure transformation pipeline of
`CommandExecutor.sanitize_command` (command-executor.ts lines 9–14),
in source order: metacharacter removal, backslash normalization,
`..` removal, `~` removal, trim. -/
def sanitize_pipeline (l : List Char) : List Char :=
  trim_list (remove_tilde (remove_dotdot (normalize_slash (remove_meta l))))

/-- `CommandExecutor.sanitize_command`: the pipeline plus the
empty-result check that throws `CommandValidationError`. -/
def sanitize_command (command : String) : Except WslError String :=
  let s := sanitize_pipeline command.data
  if s.isEmpty then
    .error (.validation "Invalid command: Empty after sanitization")
  else
    .ok (String.mk s)

/-- `CommandExecutor.validate_working_dir`: same metacharacter and
backslash handling plus trim, no `..`/`~` stripping; a falsy (absent or
empty) input passes through as `none`. -/
def validate_working_dir (working_dir : Option String) : Except WslError (Option String) :=
  match working_dir with
  | none => .ok none
  | some w =>
    if w.isEmpty then .ok none
    else
      let s := trim_list (normalize_slash (remove_meta w.data))
      if s.isEmpty then .error (.validation "Invalid working directory")
      else .ok (some (String.mk s))

/-- `CommandExecutor.validate_timeout`: `if (!timeout) return undefined;
if (isNaN(timeout) || timeout < 0) throw; return timeout`. -/
def validate_timeout (timeout : Option JSNum) : Except WslError (Option JSNum) :=
  match timeout with
  | none => .ok none
  | some t =>
    if !t.truthy then .ok none
    else if t.is_nan || t.lt_zero then
      .error (.validation "Invalid timeout value")
    else .ok (some t)

/-- The fixed dangerous-command list of `src/constants.ts`. -/
def dangerous_commands : List String :=
  ["rm", "rmdir", "dd", "mkfs", "mkswap", "fdisk", "shutdown", "reboot",
   ">", ">>", "format", "chmod", "chown", "sudo", "su", "passwd", "mv",
   "find -delete", "truncate", "shred", "kill", "pkill", "service",
   "systemctl", "mount", "umount", "apt", "apt-get", "dpkg", "yum",
   "dnf", "pacman"]

/-- A JavaScript regex word character (`\w` = `[A-Za-z0-9_]`). -/
def word_char (c : Char) : Bool :=
  c.isAlphanum || c = '_'

/-- Is position `i` of `s` occupied by a word character?
(out-of-range counts as non-word, as at the ends of a JS string). -/
def word_at (s : List Char) (i : Nat) : Bool :=
  match s.get? i with
  | some c => word_char c
  | none => false

/-- A JS regex `\b` word boundary holds at position `p` of `s`: exactly
one of the two adjacent positions holds a word character. -/
def boundary_at (s : List Char) (p : Nat) : Bool :=
  (match p with | 0 => false | q + 1 => word_at s q) != word_at s p

/-- The case-insensitive regex `\b<tok>\b` (every listed token is
regex-literal) matches `s` at position `i`. -/
def word_match_at (s tok : List Char) (i : Nat) : Bool :=
  ((s.drop i).take tok.length).map Char.toLower == tok.map Char.toLower
    && boundary_at s i && boundary_at s (i + tok.length)

/-- `command.match(new RegExp('\b' + tok + '\b', 'i'))` is non-null. -/
def regex_word_match (tok s : List Char) : Bool :=
  (List.range (s.length + 1)).any (fun i => word_match_at s tok i)

/-- `s.includes(pat)`. -/
def str_contains (s pat : List Char) : Bool :=
  (List.range (s.length + 1)).any (fun i => (s.drop i).take pat.length == pat)

/-- `CommandExecutor.is_dangerous_command`: some listed token matches
by lowercased substring or by case-insensitive word boundary. -/
def is_dangerous_command (command : String) : Bool :=
  dangerous_commands.any (fun d =>
    str_contains (command.data.map Char.toLower) (d.data.map Char.toLower)
      || regex_word_match d.data command.data)

/-- `CommandResponse` of `src/types.ts`. -/
structure CommandResponse where
  stdout : String
  stderr : String
  exit_code : Option Int
  command : String
  requires_confirmation : Option Bool := none
  error : Option String := none
  working_dir : Option String := none
deriving DecidableEq, Repr

/-- Behaviour of one would-be child process, the environment input of
the runner: its streams, exit code, the time (ms) at which its `close`
event fires, and whether a spawn-level `error` event fires instead. -/
structure ProcBehavior where
  stdout : String
  stderr : String
  exit_code : Option Int
  duration : Nat
  spawn_error : Option String := none
deriving DecidableEq, Repr

/-- Observable outcome of one `CommandExecutor.execute_command` call:
the settled promise, whether a child process was spawned, the full
command line handed to `bash -c` (if spawned), and whether the timeout
timer killed the process. -/
structure ExecOutcome where
  result : Except WslError CommandResponse
  spawned : Bool
  spawn_cmd : Option String := none
  killed : Bool := false
deriving DecidableEq, Repr

/-- `cd_command`: `validated_dir ? `cd "${validated_dir}" && ` : ''`. -/
def cd_command : Option String → String
  | some d => "cd \"" ++ d ++ "\" && "
  | none => ""

/-- `full_command` = `${cd_command}${sanitized_command}`. -/
def full_command (validated_dir : Option String) (sanitized : String) : String :=
  cd_command validated_dir ++ sanitized

/-- `CommandExecutor.execute_command` (command-executor.ts lines
60–119): sanitize, validate, spawn, stream-accumulate, and either
reject with `CommandTimeoutError` when the armed countdown fires before
`close`, reject with the spawn error, or resolve the response.  A
synchronous throw from the validators rejects the promise without a
spawn. -/
def execute_command (command : String) (working_dir : Option String)
    (timeout : Option JSNum) (proc : ProcBehavior) : ExecOutcome :=
  match sanitize_command command with
  | .error e => { result := .error e, spawned := false }
  | .ok sanitized =>
    match validate_working_dir working_dir with
    | .error e => { result := .error e, spawned := false }
    | .ok validated_dir =>
      match validate_timeout timeout with
      | .error e => { result := .error e, spawned := false }
      | .ok validated_timeout =>
        let cmdline := full_command validated_dir sanitized
        let response : CommandResponse :=
          { stdout := proc.stdout, stderr := proc.stderr,
            exit_code := proc.exit_code, command := sanitized,
            working_dir := validated_dir }
        match proc.spawn_error with
        | some msg =>
          { result := .error (.processError msg), spawned := true,
            spawn_cmd := some cmdline }
        | none =>
          match validated_timeout with
          | some t =>
            if t.lt_nat proc.duration then
              { result := .error (.timeout t), spawned := true,
                spawn_cmd := some cmdline, killed := true }
            else
              { result := .ok response, spawned := true,
                spawn_cmd := some cmdline }
          | none =>
            { result := .ok response, spawned := true,
              spawn_cmd := some cmdline }

/-- `PendingConfirmation` of `src/types.ts` (the stored request data;
the `resolve`/`reject` continuation references are meta-level and, in
the current gateway, never invoked after storage). -/
structure PendingConfirmation where
  command : String
  working_dir : Option String := none
  timeout : Option JSNum := none
deriving DecidableEq, Repr

/-- The `pending_confirmations` JS `Map`, as an association list with
unique keys. -/
abbrev Registry : Type := List (String × PendingConfirmation)

/-- `Map.prototype.get`. -/
def registry_get : Registry → String → Option PendingConfirmation
  | [], _ => none
  | (k, v) :: r, tok => if k = tok then some v else registry_get r tok

/-- `Map.prototype.delete`. -/
def registry_delete (r : Registry) (tok : String) : Registry :=
  r.filter (fun e => e.1 != tok)

/-- `Map.prototype.set` (overwrite semantics). -/
def registry_set (r : Registry) (tok : String) (p : PendingConfirmation) : Registry :=
  (tok, p) :: registry_delete r tok

/-- `pending_confirmations.set(confirmation_id, pending)` preceded by
the id generation (index.ts lines 77–86).  `Math.random().toString(36)`
is nondeterministic, so the generated id is an oracle input `tok`;
the code performs no freshness check before `set`. -/
def register (r : Registry) (tok : String) (p : PendingConfirmation) :
    Registry × String :=
  (registry_set r tok p, tok)

/-- The consume step of the `confirm_command` handler (index.ts lines
194–199): look the id up, throw `InvalidConfirmationError` when absent,
delete it otherwise. -/
def consume (r : Registry) (tok : String) :
    Except WslError (PendingConfirmation × Registry) :=
  match registry_get r tok with
  | none => .error (.invalidConfirmation tok)
  | some p => .ok (p, registry_delete r tok)

/-- The confirmation-request response built at index.ts lines 89–95. -/
def confirmation_response (command tok : String) : CommandResponse :=
  { stdout := "",
    stderr := "Command \"" ++ command ++
      "\" requires confirmation. Use confirm_command with ID: " ++ tok,
    exit_code := none, command := command,
    requires_confirmation := some true }

/-- Observable outcome of one gateway `execute_wsl_command` call. -/
structure GatewayOutcome where
  registry : Registry
  result : Except WslError CommandResponse
  exec_called : Bool
  spawned : Bool
  spawn_cmd : Option String := none
  killed : Bool := false
deriving DecidableEq, Repr

/-- `WslServer.execute_wsl_command` (index.ts lines 66–104): classify
the submitted command; when flagged, park the raw request under the
generated confirmation id `tok` and resolve early with a
`requires_confirmation` response; otherwise delegate to
`CommandExecutor.execute_command` (which sanitizes and spawns). -/
def execute_wsl_command (reg : Registry) (command : String)
    (working_dir : Option String) (timeout : Option JSNum)
    (tok : String) (proc : ProcBehavior) : GatewayOutcome :=
  if is_dangerous_command command then
    { registry := (register reg tok
        { command := command, working_dir := working_dir, timeout := timeout }).1,
      result := .ok (confirmation_response command tok),
      exec_called := false, spawned := false }
  else
    let e := execute_command command working_dir timeout proc
    { registry := reg, result := e.result, exec_called := true,
      spawned := e.spawned, spawn_cmd := e.spawn_cmd, killed := e.killed }

/-- Result variants of the `confirm_command` tool handler. -/
inductive ConfirmResult where
  | cancelled
  | executed (r : CommandResponse)
  | failed (e : WslError)
deriving DecidableEq, Repr

/-- Observable outcome of one `confirm_command` handler call, with the
arguments handed to `CommandExecutor.execute_command` (if any). -/
structure ConfirmOutcome where
  registry : Registry
  result : ConfirmResult
  exec_call : Option (String × Option String × Option JSNum) := none
  spawned : Bool := false
  killed : Bool := false
deriving DecidableEq, Repr

/-- The `confirm_command` tool handler (index.ts lines 192–225): look
up the pending entry (fail with `InvalidConfirmationError` when
absent), delete it, return a cancellation when `confirm` is false, and
otherwise hand the stored command, working directory and timeout to
`CommandExecutor.execute_command`. -/
def confirm_command (reg : Registry) (confirmation_id : String)
    (confirm : Bool) (proc : ProcBehavior) : ConfirmOutcome :=
  match registry_get reg confirmation_id with
  | none =>
    { registry := reg,
      result := .failed (.invalidConfirmation confirmation_id) }
  | some pending =>
    let reg' := registry_delete reg confirmation_id
    if confirm then
      let e := execute_command pending.command pending.working_dir
        pending.timeout proc
      { registry := reg',
        result := match e.result with
          | .ok r => .executed r
          | .error err => .failed err,
        exec_call := some (pending.command, pending.working_dir, pending.timeout),
        spawned := e.spawned, killed := e.killed }
    else
      { registry := reg', result := .cancelled }

/-- `l` contains the substring `..`, i.e. two adjacent dots. -/
def has_dotdot : List Char → Bool
  | [] => false
  | [_] => false
  | a :: b :: rest => (a == '.' && b == '.') || has_dotdot (b :: rest)

/-- A benign child-process behaviour used in concrete instances. -/
def procA : ProcBehavior :=
  { stdout := "out", stderr := "", exit_code := some 0, duration := 5 }

/-- A long-running child-process behaviour (close event at 100 ms). -/
def procSlow : ProcBehavior :=
  { stdout := "partial output", stderr := "", exit_code := some 0, duration := 100 }

/-- A stored pending entry for `ls`. -/
def pendingLs : PendingConfirmation := { command := "ls" }

/-- A stored pending entry for `rm x`. -/
def pendingRm : PendingConfirmation := { command := "rm x" }

theorem has_dotdot_iff (l : List Char) :
    has_dotdot l = true ↔ ∃ x y, l = x ++ '.' :: '.' :: y := by
  constructor
  · intro h
    induction l with
    | nil => simp [has_dotdot] at h
    | cons a t ih =>
      cases t with
      | nil => simp [has_dotdot] at h
      | cons b rest =>
        simp only [has_dotdot, Bool.or_eq_true, Bool.and_eq_true, beq_iff_eq] at h
        rcases h with ⟨ha, hb⟩ | h
        · exact ⟨[], rest, by simp [ha, hb]⟩
        · obtain ⟨x, y, hxy⟩ := ih h
          exact ⟨a :: x, y, by simp [hxy]⟩
  · rintro ⟨x, y, rfl⟩
    induction x with
    | nil => simp [has_dotdot]
    | cons c x ih =>
      cases hx : x ++ '.' :: '.' :: y with
      | nil => simp at hx
      | cons d m =>
        simp only [List.cons_append, hx, has_dotdot, Bool.or_eq_true]
        right
        rw [← hx]
        exact ih

theorem has_dotdot_cons_of_ne {a : Char} (ha : a ≠ '.') (x : List Char) :
    has_dotdot (a :: x) = has_dotdot x := by
  cases x with
  | nil => simp [has_dotdot]
  | cons b rest => simp [has_dotdot, ha]

theorem remove_dotdot_cons_of_ne {b : Char} (hb : b ≠ '.') (rest : List Char) :
    ∃ t, remove_dotdot (b :: rest) = b :: t := by
  cases rest with
  | nil => exact ⟨[], rfl⟩
  | cons c r =>
    refine ⟨remove_dotdot (c :: r), ?_⟩
    rw [remove_dotdot]
    simp [hb]

theorem remove_dotdot_no_dotdot (l : List Char) :
    has_dotdot (remove_dotdot l) = false := by
  have key : ∀ n (l : List Char), l.length ≤ n →
      has_dotdot (remove_dotdot l) = false := by
    intro n
    induction n with
    | zero =>
      intro l hl
      rw [Nat.le_zero, List.length_eq_zero] at hl
      subst hl
      rfl
    | succ n ih =>
      intro l hl
      match l with
      | [] => rfl
      | [c] => rfl
      | a :: b :: rest =>
        simp only [List.length_cons] at hl
        by_cases hab : a = '.' ∧ b = '.'
        · rw [remove_dotdot, if_pos hab]
          exact ih rest (by omega)
        · rw [remove_dotdot, if_neg hab]
          have hrec : has_dotdot (remove_dotdot (b :: rest)) = false :=
            ih (b :: rest) (by simp; omega)
          by_cases ha : a = '.'
          · have hb : b ≠ '.' := fun hb => hab ⟨ha, hb⟩
            obtain ⟨t, ht⟩ := remove_dotdot_cons_of_ne hb rest
            rw [ht] at hrec ⊢
            simp only [has_dotdot]
            simp [hb, hrec]
          · rw [has_dotdot_cons_of_ne ha]
            exact hrec
  exact key l.length l le_rfl

theorem mem_of_mem_dropWhile {p : Char → Bool} {l : List Char} {a : Char}
    (h : a ∈ l.dropWhile p) : a ∈ l := by
  induction l with
  | nil => simp at h
  | cons b t ih =>
    rw [List.dropWhile_cons] at h
    by_cases hb : p b = true
    · simp only [hb, if_true] at h
      exact List.mem_cons_of_mem _ (ih h)
    · simp only [hb] at h
      simpa using h

theorem mem_of_mem_drop_trailing {p : Char → Bool} {l : List Char} {a : Char}
    (h : a ∈ drop_trailing p l) : a ∈ l := by
  unfold drop_trailing at h
  rw [List.mem_reverse] at h
  have := mem_of_mem_dropWhile h
  rwa [List.mem_reverse] at this

theorem mem_of_mem_trim_list {l : List Char} {a : Char}
    (h : a ∈ trim_list l) : a ∈ l :=
  mem_of_mem_dropWhile (mem_of_mem_drop_trailing h)

theorem mem_of_mem_remove_dotdot {l : List Char} {a : Char}
    (h : a ∈ remove_dotdot l) : a ∈ l := by
  have key : ∀ n (l : List Char), l.length ≤ n → a ∈ remove_dotdot l → a ∈ l := by
    intro n
    induction n with
    | zero =>
      intro l hl h
      rw [Nat.le_zero, List.length_eq_zero] at hl
      subst hl
      simp [remove_dotdot] at h
    | succ n ih =>
      intro l hl h
      match l with
      | [] => simp [remove_dotdot] at h
      | [c] => simpa [remove_dotdot] using h
      | b :: c :: rest =>
        simp only [List.length_cons] at hl
        by_cases hbc : b = '.' ∧ c = '.'
        · rw [remove_dotdot, if_pos hbc] at h
          exact List.mem_cons_of_mem _ (List.mem_cons_of_mem _
            (ih rest (by omega) h))
        · rw [remove_dotdot, if_neg hbc] at h
          rcases List.mem_cons.mp h with rfl | h
          · exact List.mem_cons_self _ _
          · exact List.mem_cons_of_mem _ (ih (c :: rest) (by simp; omega) h)
  exact key l.length l le_rfl h

theorem has_dotdot_of_trim {m : List Char}
    (h : has_dotdot (trim_list m) = true) : has_dotdot m = true := by
  obtain ⟨x, y, hxy⟩ := (has_dotdot_iff _).mp h
  have h1 : m.dropWhile is_js_ws =
      trim_list m ++ ((m.dropWhile is_js_ws).reverse.takeWhile is_js_ws).reverse := by
    unfold trim_list drop_trailing
    rw [← List.reverse_append, List.takeWhile_append_dropWhile, List.reverse_reverse]
  have h2 : m = m.takeWhile is_js_ws ++
      (trim_list m ++ ((m.dropWhile is_js_ws).reverse.takeWhile is_js_ws).reverse) := by
    rw [← h1, List.takeWhile_append_dropWhile]
  rw [hxy] at h2
  refine (has_dotdot_iff m).mpr ⟨m.takeWhile is_js_ws ++ x,
    y ++ ((m.dropWhile is_js_ws).reverse.takeWhile is_js_ws).reverse, ?_⟩
  exact h2.trans (by simp)

theorem registry_get_delete (r : Registry) (tok : String) :
    registry_get (registry_delete r tok) tok = none := by
  induction r with
  | nil => rfl
  | cons e t ih =>
    rcases e with ⟨k, v⟩
    by_cases hk : k = tok
    · simpa [registry_delete, List.filter_cons, hk] using ih
    · simpa [registry_delete, List.filter_cons, hk, registry_get] using ih

theorem registry_get_set (r : Registry) (tok : String) (p : PendingConfirmation) :
    registry_get (registry_set r tok p) tok = some p := by
  simp [registry_set, registry_get]

/-- Claim C4 (confirmed): whenever `sanitize_command` returns a
sanitized command, that command contains none of the characters
`;`, `&`, `|`, `` ` ``, `$` — in particular this holds for every input
containing any of them. -/
theorem sanitize_output_has_no_metachar (cmd s : String)
    (hs : sanitize_command cmd = .ok s) :
    ∀ c ∈ s.data, is_meta_char c = false := by
  intro c hc
  have hdata : s.data = sanitize_pipeline cmd.data := by
    by_cases he : (sanitize_pipeline cmd.data).isEmpty
    · simp [sanitize_command, he] at hs
    · simp [sanitize_command, he] at hs
      rw [← hs]
  rw [hdata] at hc
  have h1 := mem_of_mem_trim_list hc
  have h2 := List.mem_of_mem_filter h1
  have h3 := mem_of_mem_remove_dotdot h2
  obtain ⟨a, ha, hac⟩ := List.mem_map.mp h3
  by_cases hb : a = '\\'
  · rw [if_pos hb] at hac
    rw [← hac]
    decide
  · rw [if_neg hb] at hac
    rw [← hac]
    have := List.of_mem_filter ha
    simpa using this

/-- Claim C4 witness: `a;b&c` sanitizes to `abc`, which contains no
shell metacharacter. -/
theorem sanitize_output_has_no_metachar_witness :
    sanitize_command "a;b&c" = .ok "abc" ∧
    ∀ c ∈ "abc".data, is_meta_char c = false :=
  ⟨by decide, sanitize_output_has_no_metachar "a;b&c" "abc" (by decide)⟩

/-- Claim C5 counterexample: the input `.~.` contains no `..`, so the
`..`-removal pass leaves it unchanged, and the later `~` removal joins
the two dots: the sanitized output is exactly `..`. -/
theorem sanitize_output_dotdot_counterexample :
    sanitize_command ".~." = .ok ".." ∧
    has_dotdot (sanitize_pipeline ".~.".data) = true := by
  constructor
  · decide
  · decide

/-- Claim C5 (amended): the sanitized output contains no `~` character;
and it contains no `..` substring provided the input contains no `~`
(the `..`-removal pass runs before the `~`-removal pass, so removing a
`~` that separates two dots can recreate a `..`). -/
theorem sanitize_output_no_tilde_dotdot (cmd : String) :
    (∀ c ∈ sanitize_pipeline cmd.data, c ≠ '~') ∧
    ('~' ∉ cmd.data → has_dotdot (sanitize_pipeline cmd.data) = false) := by
  constructor
  · intro c hc
    have h1 := mem_of_mem_trim_list hc
    have := List.of_mem_filter h1
    simpa using this
  · intro hnt
    have hnt2 : '~' ∉ remove_dotdot (normalize_slash (remove_meta cmd.data)) := by
      intro hmem
      have h3 := mem_of_mem_remove_dotdot hmem
      obtain ⟨a, ha, hac⟩ := List.mem_map.mp h3
      by_cases hb : a = '\\'
      · rw [if_pos hb] at hac
        exact absurd hac (by decide)
      · rw [if_neg hb] at hac
        rw [hac] at ha
        exact hnt (List.mem_of_mem_filter ha)
    have heq : remove_tilde (remove_dotdot (normalize_slash (remove_meta cmd.data))) =
        remove_dotdot (normalize_slash (remove_meta cmd.data)) := by
      apply List.filter_eq_self.mpr
      intro a ha
      have : a ≠ '~' := fun h => hnt2 (h ▸ ha)
      simpa using this
    unfold sanitize_pipeline
    rw [heq]
    by_contra hdd
    rw [Bool.not_eq_false] at hdd
    have := has_dotdot_of_trim hdd
    rw [remove_dotdot_no_dotdot] at this
    exact Bool.false_ne_true this

/-- Claim C5 witness (amended form): a `~`-free input such as
`src/app` sanitizes without any `..` in the output, and its output has
no `~`. -/
theorem sanitize_output_no_tilde_dotdot_witness :
    has_dotdot (sanitize_pipeline "src/app".data) = false :=
  (sanitize_output_no_tilde_dotdot "src/app").2 (by decide)

/-- Claim C6 (confirmed): a command whose sanitization pipeline result
is empty makes `sanitize_command` fail with the
`CommandValidationError`, and no child process is spawned, neither by
`execute_command` nor by the gateway call carrying the request. -/
theorem empty_sanitize_fails_no_spawn (cmd : String)
    (hempty : sanitize_pipeline cmd.data = []) :
    sanitize_command cmd =
      .error (.validation "Invalid command: Empty after sanitization") ∧
    (∀ wd tmo proc, (execute_command cmd wd tmo proc).spawned = false ∧
      (execute_command cmd wd tmo proc).spawn_cmd = none) ∧
    (∀ reg wd tmo tok proc,
      (execute_wsl_command reg cmd wd tmo tok proc).spawned = false) := by
  have hsc : sanitize_command cmd =
      .error (.validation "Invalid command: Empty after sanitization") := by
    simp [sanitize_command, hempty]
  refine ⟨hsc, ?_, ?_⟩
  · intro wd tmo proc
    constructor <;> simp [execute_command, hsc]
  · intro reg wd tmo tok proc
    by_cases hd : is_dangerous_command cmd
    · simp [execute_wsl_command, hd]
    · simp [execute_wsl_command, hd, execute_command, hsc]

/-- Claim C6 witness: the command `" ~ "` (only a home reference and
whitespace) sanitizes to the empty string, fails validation and spawns
nothing. -/
theorem empty_sanitize_fails_no_spawn_witness :
    sanitize_command " ~ " =
      .error (.validation "Invalid command: Empty after sanitization") ∧
    (execute_command " ~ " none none procA).spawned = false := by
  have h := empty_sanitize_fails_no_spawn " ~ " (by decide)
  exact ⟨h.1, (h.2.1 none none procA).1⟩

/-- Claim C7 (confirmed): `is_dangerous_command` returns true exactly
when some token of the fixed list matches the command, by lowercased
substring or by case-insensitive word-boundary regex; in particular
`rm -rf /tmp` is flagged and `ls -la` is not. -/
theorem dangerous_iff_token_matches :
    (∀ cmd : String, is_dangerous_command cmd = true ↔
      ∃ d ∈ dangerous_commands,
        (str_contains (cmd.data.map Char.toLower) (d.data.map Char.toLower) = true ∨
          regex_word_match d.data cmd.data = true)) ∧
    is_dangerous_command "rm -rf /tmp" = true ∧
    is_dangerous_command "ls -la" = false := by
  refine ⟨?_, by decide, by decide⟩
  intro cmd
  simp [is_dangerous_command, List.any_eq_true]

/-- Claim C8 counterexample: `NaN` is not a finite number, yet
`validate_timeout` does not fail on it — the `!timeout` truthiness
check returns `undefined` first; and `Infinity` is not finite either,
yet it passes through as a timeout value. -/
theorem validate_timeout_nan_inf_counterexample :
    validate_timeout (some JSNum.nan) = .ok none ∧
    validate_timeout (some JSNum.inf) = .ok (some JSNum.inf) := by
  constructor
  · decide
  · decide

/-- Claim C8 (amended): `validate_timeout` fails with the validation
failure exactly when the supplied value is truthy (nonzero, non-NaN)
and negative; an absent input passes through as "no timeout", as do the
falsy values `0` and `NaN`; any other value — `Infinity` included —
passes through unchanged. -/
theorem validate_timeout_spec (t : JSNum) :
    validate_timeout none = .ok none ∧
    (validate_timeout (some t) = .error (.validation "Invalid timeout value") ↔
      (t.truthy = true ∧ t.lt_zero = true)) ∧
    (t.truthy = false → validate_timeout (some t) = .ok none) ∧
    (t.truthy = true → t.lt_zero = false →
      validate_timeout (some t) = .ok (some t)) := by
  rcases t with _ | _ | _ | v
  · exact ⟨rfl, by simp [validate_timeout, JSNum.truthy], fun _ => rfl,
      fun h _ => absurd h (by decide)⟩
  · exact ⟨rfl, by simp [validate_timeout, JSNum.truthy, JSNum.is_nan, JSNum.lt_zero],
      fun h => absurd h (by decide), fun _ _ => rfl⟩
  · exact ⟨rfl, by simp [validate_timeout, JSNum.truthy, JSNum.is_nan, JSNum.lt_zero],
      fun h => absurd h (by decide), fun _ h => absurd h (by decide)⟩
  · refine ⟨rfl, ?_, ?_, ?_⟩
    · by_cases h0 : v = 0
      · subst h0
        simp [validate_timeout, JSNum.truthy, JSNum.lt_zero]
      · by_cases hneg : v < 0
        · simp [validate_timeout, JSNum.truthy, JSNum.is_nan, JSNum.lt_zero, h0, hneg]
        · simp [validate_timeout, JSNum.truthy, JSNum.is_nan, JSNum.lt_zero, h0, hneg]
    · intro h
      simp only [JSNum.truthy, bne_eq_false_iff_eq] at h
      subst h
      decide
    · intro h1 h2
      simp only [JSNum.truthy, bne_iff_ne, ne_eq] at h1
      simp only [JSNum.lt_zero, decide_eq_false_iff_not] at h2
      simp [validate_timeout, JSNum.truthy, JSNum.is_nan, JSNum.lt_zero, h1, h2]

/-- Claim C8 witness (amended form): `-7` is truthy and negative, so
validation fails on it. -/
theorem validate_timeout_spec_witness :
    validate_timeout (some (JSNum.num (-7))) =
      .error (.validation "Invalid timeout value") :=
  (validate_timeout_spec (JSNum.num (-7))).2.1.mpr (by decide)

/-- Claim C10 (confirmed): a supplied timeout of `0` is falsy, so
`validate_timeout` turns it into "no timeout"; `execute_command`
behaves identically to an absent timeout, arms no countdown and never
kills the process. -/
theorem timeout_zero_is_no_timeout :
    validate_timeout (some (JSNum.num 0)) = .ok none ∧
    validate_timeout (some (JSNum.num 0)) = validate_timeout none ∧
    ∀ (cmd : String) (wd : Option String) (proc : ProcBehavior),
      execute_command cmd wd (some (JSNum.num 0)) proc =
        execute_command cmd wd none proc ∧
      (execute_command cmd wd (some (JSNum.num 0)) proc).killed = false := by
  refine ⟨by decide, by decide, ?_⟩
  intro cmd wd proc
  have heq : execute_command cmd wd (some (JSNum.num 0)) proc =
      execute_command cmd wd none proc := by
    unfold execute_command
    have hv : validate_timeout (some (JSNum.num 0)) = validate_timeout none := by decide
    rw [hv]
  refine ⟨heq, ?_⟩
  rw [heq]
  rcases hsc : sanitize_command cmd with e | s
  · simp [execute_command, hsc]
  · rcases hwd : validate_working_dir wd with e | d
    · simp [execute_command, hsc, hwd]
    · rcases hp : proc.spawn_error with _ | msg <;>
        simp [execute_command, hsc, hwd, validate_timeout, hp]

/-- Claim C1 counterexample: for the submitted command `r;m -rf /` the
sanitized form is `rm -rf /`, which the classifier flags, yet the
gateway — which classifies the raw command, not the sanitized one —
does not suspend the request: the executor is invoked and a child
process is spawned in that very call, and the registry is untouched. -/
theorem gateway_runs_sanitized_dangerous_counterexample :
    sanitize_command "r;m -rf /" = .ok "rm -rf /" ∧
    is_dangerous_command "rm -rf /" = true ∧
    is_dangerous_command "r;m -rf /" = false ∧
    (execute_wsl_command [] "r;m -rf /" none none "tok1" procA).exec_called = true ∧
    (execute_wsl_command [] "r;m -rf /" none none "tok1" procA).spawned = true ∧
    (execute_wsl_command [] "r;m -rf /" none none "tok1" procA).registry = [] := by
  refine ⟨by decide, by decide, by decide, by decide, by decide, by decide⟩

/-- Claim C1 (amended): the gateway classifies the raw submitted
command.  Whenever the raw command is flagged dangerous, the request is
suspended — a pending confirmation holding the raw request is
registered under the generated token and a `requires_confirmation`
response carrying the token is returned — and the executor is not
invoked in that call; the executor (which sanitizes and then spawns)
runs immediately exactly when the raw command is not flagged. -/
theorem gateway_classifies_raw_command (reg : Registry) (cmd : String)
    (wd : Option String) (tmo : Option JSNum) (tok : String)
    (proc : ProcBehavior) :
    (is_dangerous_command cmd = true →
      execute_wsl_command reg cmd wd tmo tok proc =
        { registry := registry_set reg tok
            { command := cmd, working_dir := wd, timeout := tmo },
          result := .ok (confirmation_response cmd tok),
          exec_called := false, spawned := false }) ∧
    (is_dangerous_command cmd = false →
      (execute_wsl_command reg cmd wd tmo tok proc).exec_called = true ∧
      (execute_wsl_command reg cmd wd tmo tok proc).spawned =
        (execute_command cmd wd tmo proc).spawned ∧
      (execute_wsl_command reg cmd wd tmo tok proc).registry = reg) := by
  constructor
  · intro h
    simp [execute_wsl_command, h, register]
  · intro h
    refine ⟨?_, ?_, ?_⟩ <;> simp [execute_wsl_command, h]

/-- Claim C1 witness (amended form): the dangerous raw command `rm x`
is suspended with the generated token and nothing is executed. -/
theorem gateway_classifies_raw_command_witness :
    execute_wsl_command [] "rm x" none none "tok1" procA =
      { registry := registry_set [] "tok1" { command := "rm x" },
        result := .ok (confirmation_response "rm x" "tok1"),
        exec_called := false, spawned := false } :=
  (gateway_classifies_raw_command [] "rm x" none none "tok1" procA).1 (by decide)

/-- Claim C2 counterexample: the id generator performs no freshness
check, so a generated id that collides with a stored one (both `abc`
here) is returned even though it is currently present in the
registry. -/
theorem register_collision_counterexample :
    (register [("abc", pendingLs)] "abc" pendingRm).2 = "abc" ∧
    registry_get [("abc", pendingLs)] "abc" = some pendingLs := by
  constructor
  · rfl
  · rfl

/-- Claim C2 (amended): provided the generated token is not currently
present in the registry (the generator itself guarantees no such
freshness), registering stores the entry under that token, a first
consumption succeeds — returning exactly the stored entry and removing
it — and a second consumption of the same token fails with
`InvalidConfirmationError`. -/
theorem register_consume_once (reg : Registry) (tok : String)
    (p : PendingConfirmation) (hfresh : registry_get reg tok = none) :
    (register reg tok p).2 = tok ∧
    registry_get reg (register reg tok p).2 = none ∧
    consume (register reg tok p).1 tok =
      .ok (p, registry_delete (register reg tok p).1 tok) ∧
    consume (registry_delete (register reg tok p).1 tok) tok =
      .error (.invalidConfirmation tok) := by
  refine ⟨rfl, hfresh, ?_, ?_⟩
  · simp [consume, register, registry_get_set]
  · simp [consume, registry_get_delete]

/-- Claim C2 witness (amended form): registering under the fresh token
`abc` in the empty registry and consuming it once succeeds with the
stored entry; the second consumption fails. -/
theorem register_consume_once_witness :
    consume (register [] "abc" pendingLs).1 "abc" =
      .ok (pendingLs, registry_delete (register [] "abc" pendingLs).1 "abc") ∧
    consume (registry_delete (register [] "abc" pendingLs).1 "abc") "abc" =
      .error (.invalidConfirmation "abc") := by
  have h := register_consume_once [] "abc" pendingLs rfl
  exact ⟨h.2.2.1, h.2.2.2⟩

/-- Claim C3 counterexample: a supplied timeout of `0` is a set
`timeout_ms`, and a process closing at 100 ms runs longer than it, yet
the code arms no countdown for the falsy value `0`: the process is not
killed and the caller receives a full `ExecutionResult` instead of a
`CommandTimeoutError`. -/
theorem timeout_zero_counterexample :
    (execute_command "sleep 10" none (some (JSNum.num 0)) procSlow).killed = false ∧
    (execute_command "sleep 10" none (some (JSNum.num 0)) procSlow).result =
      .ok { stdout := "partial output", stderr := "", exit_code := some 0,
            command := "sleep 10" } := by
  constructor
  · decide
  · decide

/-- Claim C3 (amended): whenever the supplied timeout validates to an
armed (truthy) timeout `t` and the process would run longer than `t`,
the child process is killed and the call fails with
`CommandTimeoutError` carrying exactly `t`; the caller receives no
`ExecutionResult`.  A supplied timeout of `0` (or `NaN`) is falsy,
arms no countdown, and the process runs unbounded. -/
theorem armed_timeout_kills (cmd : String) (wd : Option String)
    (tmo : Option JSNum) (proc : ProcBehavior) (s : String)
    (d : Option String) (t : JSNum)
    (hs : sanitize_command cmd = .ok s)
    (hd : validate_working_dir wd = .ok d)
    (ht : validate_timeout tmo = .ok (some t))
    (hp : proc.spawn_error = none)
    (hlong : t.lt_nat proc.duration = true) :
    execute_command cmd wd tmo proc =
      { result := .error (.timeout t), spawned := true,
        spawn_cmd := some (full_command d s), killed := true } := by
  simp [execute_command, hs, hd, ht, hp, hlong]

/-- Claim C3 witness (amended form): `timeout_ms = 50` with a process
closing at 100 ms yields `CommandTimeoutError` carrying 50, a kill,
and no result. -/
theorem armed_timeout_kills_witness :
    execute_command "sleep 10" none (some (JSNum.num 50)) procSlow =
      { result := .error (.timeout (JSNum.num 50)), spawned := true,
        spawn_cmd := some (full_command none "sleep 10"), killed := true } :=
  armed_timeout_kills "sleep 10" none (some (JSNum.num 50)) procSlow
    "sleep 10" none (JSNum.num 50) (by decide) (by decide) (by decide)
    (by decide) (by decide)

/-- Claim C9 (confirmed): for a pending confirmation stored under `id`,
a confirmation call with `confirm = false` consumes the token and
returns the cancellation result without ever invoking the executor or
spawning a process, and a confirmation call with `confirm = true`
consumes the token and hands exactly the stored command, working
directory and timeout to the executor. -/
theorem confirm_consumes_and_hands_stored (reg : Registry) (id : String)
    (proc : ProcBehavior) (p : PendingConfirmation)
    (hp : registry_get reg id = some p) :
    confirm_command reg id false proc =
      { registry := registry_delete reg id, result := .cancelled } ∧
    (confirm_command reg id true proc).exec_call =
      some (p.command, p.working_dir, p.timeout) ∧
    (confirm_command reg id true proc).registry = registry_delete reg id := by
  refine ⟨?_, ?_, ?_⟩ <;> simp [confirm_command, hp]

/-- Claim C9 witness: with `rm x` pending under `xyz`, rejecting
cancels with nothing executed, and approving hands the stored triple to
the executor. -/
theorem confirm_consumes_and_hands_stored_witness :
    confirm_command [("xyz", pendingRm)] "xyz" false procA =
      { registry := [], result := .cancelled } ∧
    (confirm_command [("xyz", pendingRm)] "xyz" true procA).exec_call =
      some ("rm x", none, none) := by
  have h := confirm_consumes_and_hands_stored [("xyz", pendingRm)] "xyz"
    procA pendingRm (by decide)
  refine ⟨h.1.trans (by decide), h.2.1.trans (by decide)⟩

